import Mathlib

/-!
Verification of the autogtp orchestration logic (src/autogtp/Production.cpp)
of leela-zero: the self-play worker state machine, the model refresh and
retry protocol, the result aggregation path and the upload pipeline, shallowly
embedded in Lean.
-/

set_option linter.unusedVariables false

namespace Autogtp

/-! ## Worker state machine (ProductionWorker, lines 32-102) -/

/-- Run state of one worker, the m_state field: RUNNING, NET_CHANGE or
FINISHING. -/
inductive RunState where
  | RUNNING
  | NET_CHANGE
  | FINISHING
  deriving DecidableEq, Repr

open RunState

/-- Observable data of one completed game, as the worker loop reads it:
the result of game.getScore (true when the game produced a decisive score),
the file handle game.getFile and the wall-clock game duration in seconds. -/
structure GameResult where
  score : Bool
  file : String
  duration : Nat
  deriving DecidableEq, Repr

/-- Effects of the switch on m_state at lines 60-88 of ProductionWorker::run,
executed once the inner move loop has ended. -/
structure GameEndOut where
  /-- Arguments of each resultReady emission performed by this switch. -/
  emits : List (String × Nat)
  /-- True when game.writeSgf and game.dumpTraining ran (record persisted). -/
  persisted : Bool
  /-- True when game.gameQuit ran (engine session torn down). -/
  quit : Bool
  /-- Value of m_state after the switch. -/
  state : RunState
  deriving DecidableEq, Repr

/-- Embedding of the switch on m_state in ProductionWorker::run
(Production.cpp lines 60-88). In the RUNNING case the code persists the
record only under the getScore test, but the resultReady emission at line 71
sits outside that conditional; in the NET_CHANGE case the state is reset to
RUNNING at line 79 and nothing is emitted; in the FINISHING case nothing is
emitted and the state is left as FINISHING. Every branch calls
game.gameQuit. -/
def workerHandleGameEnd (s : RunState) (g : GameResult) : GameEndOut :=
  match s with
  | RUNNING =>
      { emits := [(g.file, g.duration)]
        persisted := g.score
        quit := true
        state := RUNNING }
  | NET_CHANGE =>
      { emits := []
        persisted := false
        quit := true
        state := RUNNING }
  | FINISHING =>
      { emits := []
        persisted := false
        quit := true
        state := FINISHING }

/-- Embedding of the outer do-while loop of ProductionWorker::run. The
script lists, for each game the loop plays, the value of m_state observed at
the switch (the state may have been set externally to NET_CHANGE or FINISHING
while the game was in progress) together with the result data of that game.
The loop keeps starting fresh games while the post-switch state is not
FINISHING and the script provides more games. Returns the concatenated
resultReady emissions and the number of games started. -/
def workerRun : List (RunState × GameResult) → List (String × Nat) × Nat
  | [] => ([], 0)
  | (s, g) :: rest =>
      let out := workerHandleGameEnd s g
      if out.state ≠ FINISHING then
        let (emitsRest, started) := workerRun rest
        (out.emits ++ emitsRest, started + 1)
      else
        (out.emits, 1)

/-! ## Model file verification (Production::networkExists, lines 251-279) -/

/-- Status of one local file as the file system presents it to
Production::networkExists: whether the file exists, whether QFile::open
succeeds, whether QCryptographicHash::addData succeeds, whether
QFile::remove succeeds, and the hex digest of the file content. -/
structure FileStatus where
  fileExists : Bool
  openOk : Bool
  readOk : Bool
  removeOk : Bool
  contentHash : String
  deriving DecidableEq, Repr

/-- Result of a call to Production::networkExists: either a boolean return
or a process exit with failure status. -/
inductive ExistsRes where
  | ret (b : Bool)
  | fatalExit
  deriving DecidableEq, Repr

/-- Embedding of Production::networkExists (lines 251-279) for the file
named by m_network. Returns the call result together with a flag recording
whether the file was removed. When the file exists and opens, a failed read
is a process exit; a matching content hash returns true; a mismatching hash
removes the file and returns false. When the file exists but does not open,
the code removes it and returns false, or exits if the removal fails. A
missing file returns false. -/
def networkExists (network : String) (f : FileStatus) : ExistsRes × Bool :=
  if f.fileExists then
    if f.openOk then
      if !f.readOk then
        (ExistsRes.fatalExit, false)
      else if f.contentHash = network then
        (ExistsRes.ret true, false)
      else
        (ExistsRes.ret false, true)
    else
      if f.removeOk then
        (ExistsRes.ret false, true)
      else
        (ExistsRes.fatalExit, false)
  else
    (ExistsRes.ret false, false)

/-! ## Model refresh and retry protocol (Production::updateNetwork,
fetchBestNetworkHash, fetchBestNetwork, lines 28-30 and 123-146 and
204-335) -/

/-- Constant RETRY_DELAY_MIN_SEC at line 28. -/
def RETRY_DELAY_MIN_SEC : Nat := 30

/-- Constant RETRY_DELAY_MAX_SEC at line 29. -/
def RETRY_DELAY_MAX_SEC : Nat := 60 * 60

/-- Constant MAX_RETRIES at line 30. -/
def MAX_RETRIES : Nat := 4 * 24

/-- Backoff delay value in the range where the conversion is defined:
std::min of RETRY_DELAY_MIN_SEC * std::pow(1.5, retries) and
RETRY_DELAY_MAX_SEC (lines 134-137), where std::min is instantiated at int
so the double product is truncated toward zero. For attempt index i at most
12 the double arithmetic is exact (RETRY_DELAY_MIN_SEC * 3 ^ i fits in the
53-bit mantissa) and the int conversion yields the floor, embedded here as
natural division by 2 ^ i; for larger i in the defined range the product
already exceeds the cap on both sides, so the minimum is
RETRY_DELAY_MAX_SEC either way. -/
def retryDelayVal (i : Nat) : Nat :=
  min ((RETRY_DELAY_MIN_SEC * 3 ^ i) / 2 ^ i) RETRY_DELAY_MAX_SEC

/-- Backoff delay computed at lines 134-137. The double
RETRY_DELAY_MIN_SEC * std::pow(1.5, retries) is converted to int (a 32-bit
type on every platform this client targets) inside std::min: when the
value reaches 2 ^ 31 the conversion is undefined behavior in C++, which
happens exactly when RETRY_DELAY_MIN_SEC * 3 ^ i reaches 2 ^ 31 * 2 ^ i,
that is, for every attempt index i of 45 or more; the embedding returns
none there, asserting no delay value. In the defined range the delay is
retryDelayVal i. -/
def retryDelay (i : Nat) : Option Nat :=
  if RETRY_DELAY_MIN_SEC * 3 ^ i < 2 ^ 31 * 2 ^ i then
    some (retryDelayVal i)
  else
    none

/-- Value of a run of decimal digits read left to right starting from acc,
or none at the first non-digit character. -/
def digitsVal : List Char → Nat → Option Nat
  | [], acc => some acc
  | c :: rest, acc =>
      if c.isDigit then digitsVal rest (acc * 10 + (c.toNat - 48)) else none

/-- Model of QString::toInt as the code uses it on the second server line:
an optional sign followed by decimal digits yields the signed value, and
any malformed text yields 0, the documented QString::toInt fallback. -/
def qstringToInt (s : String) : Int :=
  match s.data with
  | [] => 0
  | '-' :: rest =>
      match rest, digitsVal rest 0 with
      | _ :: _, some n => -(n : Int)
      | _, _ => 0
  | '+' :: rest =>
      match rest, digitsVal rest 0 with
      | _ :: _, some n => (n : Int)
      | _, _ => 0
  | cs =>
      match digitsVal cs 0 with
      | some n => (n : Int)
      | none => 0

/-- Environment of one call to Production::fetchBestNetworkHash: the exit
code of the curl subprocess and the newline-split lines of its standard
output. -/
structure HashFetchEnv where
  curlExit : Nat
  outLines : List String
  deriving DecidableEq, Repr

/-- Result of Production::fetchBestNetworkHash: a boolean return (true when
the server hash equals the current network), a thrown NetworkException, or a
process exit with failure status. -/
inductive HashRes where
  | ok (unchanged : Bool)
  | netErr
  | fatalExit
  deriving DecidableEq, Repr

/-- Embedding of Production::fetchBestNetworkHash (lines 204-249), returning
the call result together with the new value of m_network. A non-zero curl
exit or an output that does not split into exactly two lines throws
NetworkException; a server-required client version above the local version
exits the process; an unchanged hash returns true; otherwise m_network is
set to the server hash and the call returns false. -/
def fetchBestNetworkHash (version : Int) (network : String)
    (env : HashFetchEnv) : HashRes × String :=
  if env.curlExit ≠ 0 then
    (HashRes.netErr, network)
  else if env.outLines.length ≠ 2 then
    (HashRes.netErr, network)
  else
    let outhash := env.outLines.headD ""
    let serverExpected : Int := qstringToInt (env.outLines.getD 1 "")
    if serverExpected > version then
      (HashRes.fatalExit, network)
    else if outhash = network then
      (HashRes.ok true, network)
    else
      (HashRes.ok false, outhash)

/-- Environment of one call to Production::fetchBestNetwork: the status of
the local file named by the current m_network, the exit code and standard
output lines of the download curl subprocess, and the status of the file
named by the effective filename minus the .gz suffix once gunzip has run. -/
structure DownloadEnv where
  localFile : FileStatus
  curlExit : Nat
  outLines : List String
  downloadedFile : FileStatus
  deriving DecidableEq, Repr

/-- Result of Production::fetchBestNetwork: a normal return, a thrown
NetworkException, or a process exit with failure status. -/
inductive FetchRes where
  | ok
  | netErr
  | fatalExit
  deriving DecidableEq, Repr

/-- Output of Production::fetchBestNetwork: the result, the final value of
m_network, whether the download subprocess was launched, and whether a
downloaded file was deleted because its content hash did not match its
name. -/
structure FetchOut where
  res : FetchRes
  network : String
  downloadAttempted : Bool
  deletedCorrupt : Bool
  deriving DecidableEq, Repr

/-- Embedding of Production::fetchBestNetwork (lines 281-335). When
networkExists already validates the local file the call returns with no
download. Otherwise the download curl runs (a stale .gz file is removed
first); a non-zero exit throws NetworkException; otherwise the effective
filename is taken from the first output line, gunzip strips the three
characters of the .gz suffix, m_network becomes that name, and a final
networkExists check must validate the file or the process exits with
failure status (line 331). A hash mismatch on that final check has already
removed the corrupt file inside networkExists. -/
def fetchBestNetwork (network : String) (env : DownloadEnv) : FetchOut :=
  match networkExists network env.localFile with
  | (ExistsRes.fatalExit, _) =>
      { res := FetchRes.fatalExit, network := network
        downloadAttempted := false, deletedCorrupt := false }
  | (ExistsRes.ret true, _) =>
      { res := FetchRes.ok, network := network
        downloadAttempted := false, deletedCorrupt := false }
  | (ExistsRes.ret false, _) =>
      if env.curlExit ≠ 0 then
        { res := FetchRes.netErr, network := network
          downloadAttempted := true, deletedCorrupt := false }
      else
        let outfile := env.outLines.headD ""
        let newName := outfile.dropRight 3
        match networkExists newName env.downloadedFile with
        | (ExistsRes.fatalExit, _) =>
            { res := FetchRes.fatalExit, network := newName
              downloadAttempted := true, deletedCorrupt := false }
        | (ExistsRes.ret true, rm) =>
            { res := FetchRes.ok, network := newName
              downloadAttempted := true, deletedCorrupt := rm }
        | (ExistsRes.ret false, rm) =>
            { res := FetchRes.fatalExit, network := newName
              downloadAttempted := true, deletedCorrupt := rm }

/-- Environment of one refresh attempt inside Production::updateNetwork:
the hash-endpoint call environment and the download environment. -/
structure AttemptEnv where
  hashEnv : HashFetchEnv
  dlEnv : DownloadEnv
  deriving DecidableEq, Repr

/-- Result of one refresh attempt: a boolean return of updateNetwork, a
caught NetworkException, or a process exit. -/
inductive AttemptRes where
  | ok (unchanged : Bool)
  | netErr
  | fatalExit
  deriving DecidableEq, Repr

/-- Output of one refresh attempt. -/
structure AttemptOut where
  res : AttemptRes
  network : String
  downloadAttempted : Bool
  deletedCorrupt : Bool
  deriving DecidableEq, Repr

/-- Embedding of the try block of Production::updateNetwork (lines 125-128):
fetchBestNetworkHash runs first and its boolean is the value returned on
success; fetchBestNetwork then runs on the possibly updated m_network. A
NetworkException from either call reaches the catch block; a process exit
from either call ends the run. -/
def refreshAttempt (version : Int) (network : String)
    (env : AttemptEnv) : AttemptOut :=
  match fetchBestNetworkHash version network env.hashEnv with
  | (HashRes.netErr, n) =>
      { res := AttemptRes.netErr, network := n
        downloadAttempted := false, deletedCorrupt := false }
  | (HashRes.fatalExit, n) =>
      { res := AttemptRes.fatalExit, network := n
        downloadAttempted := false, deletedCorrupt := false }
  | (HashRes.ok unchanged, n) =>
      let f := fetchBestNetwork n env.dlEnv
      match f.res with
      | FetchRes.ok =>
          { res := AttemptRes.ok unchanged, network := f.network
            downloadAttempted := f.downloadAttempted
            deletedCorrupt := f.deletedCorrupt }
      | FetchRes.netErr =>
          { res := AttemptRes.netErr, network := f.network
            downloadAttempted := f.downloadAttempted
            deletedCorrupt := f.deletedCorrupt }
      | FetchRes.fatalExit =>
          { res := AttemptRes.fatalExit, network := f.network
            downloadAttempted := f.downloadAttempted
            deletedCorrupt := f.deletedCorrupt }

/-- Result of Production::updateNetwork: a boolean return, a process exit
from inside an attempt, or the exit with failure status after the retry
loop at line 145 once MAX_RETRIES attempts have failed. -/
inductive UpdateRes where
  | ok (unchanged : Bool)
  | fatalExit
  | gaveUp
  deriving DecidableEq, Repr

/-- Output of Production::updateNetwork: the result, the number of attempts
performed, the list of backoff delays slept (none marking a sleep whose
delay computation is undefined behavior), the final m_network, whether
any attempt launched a download, and whether any attempt deleted a corrupt
downloaded file. -/
structure UpdateOut where
  res : UpdateRes
  attempts : Nat
  delays : List (Option Nat)
  network : String
  downloadAttempted : Bool
  deletedCorrupt : Bool
  deriving DecidableEq, Repr

/-- Embedding of the retry loop of Production::updateNetwork (lines
123-146), with the loop counter i and the remaining fuel made explicit. A
successful attempt returns its boolean; a process exit inside an attempt
ends the run; a NetworkException sleeps retryDelay i and continues with the
next attempt, and exhausting the fuel reaches the exit after the loop. The
environment of attempt number j is envs j. -/
def updateNetworkAux (version : Int) (envs : Nat → AttemptEnv) :
    String → Nat → Nat → UpdateOut
  | network, _, 0 =>
      { res := UpdateRes.gaveUp, attempts := 0, delays := []
        network := network, downloadAttempted := false
        deletedCorrupt := false }
  | network, i, fuel + 1 =>
      let a := refreshAttempt version network (envs i)
      match a.res with
      | AttemptRes.ok u =>
          { res := UpdateRes.ok u, attempts := 1, delays := []
            network := a.network, downloadAttempted := a.downloadAttempted
            deletedCorrupt := a.deletedCorrupt }
      | AttemptRes.fatalExit =>
          { res := UpdateRes.fatalExit, attempts := 1, delays := []
            network := a.network, downloadAttempted := a.downloadAttempted
            deletedCorrupt := a.deletedCorrupt }
      | AttemptRes.netErr =>
          let rest := updateNetworkAux version envs a.network (i + 1) fuel
          { res := rest.res, attempts := rest.attempts + 1
            delays := retryDelay i :: rest.delays
            network := rest.network
            downloadAttempted := a.downloadAttempted || rest.downloadAttempted
            deletedCorrupt := a.deletedCorrupt || rest.deletedCorrupt }

/-- Embedding of Production::updateNetwork: the retry loop starts at
attempt index 0 with MAX_RETRIES attempts available. -/
def updateNetwork (version : Int) (network : String)
    (envs : Nat → AttemptEnv) : UpdateOut :=
  updateNetworkAux version envs network 0 MAX_RETRIES

/-! ## Upload pipeline (Production::uploadData, lines 337-398) -/

/-- Output of one iteration of the loop in Production::uploadData: the
copies made into the retention directories, whether the non-zero curl exit
was logged with the Continuing message, and the files removed after the
attempt. The function body contains no throw and no exit call, so the
output has no fatal alternative and control always returns to the
caller. -/
structure UploadOut where
  keepCopies : List (String × String)
  debugCopies : List (String × String)
  uploadFailureLogged : Bool
  removed : List String
  deriving DecidableEq, Repr

/-- Embedding of one iteration of the loop in Production::uploadData (lines
346-396) for a matched game record file. The training data name replaces
the four characters of the .sgf suffix with .txt.0.gz, the debug data name
with .txt.debug.0.gz; copies into the retention directories happen when the
paths are nonempty; gzip turns the record into sgf_file.gz before the
multipart submission; a non-zero curl exit is logged and execution
continues; the compressed record, training data and debug data files are
removed unconditionally at lines 393-395. -/
def uploadOne (keepPath debugPath : String) (curlExit : Nat)
    (sgf_file : String) : UploadOut :=
  let data_base := sgf_file.dropRight 4
  let data_file := data_base ++ ".txt.0.gz"
  let debug_data_file := data_base ++ ".txt.debug.0.gz"
  let gz_file := sgf_file ++ ".gz"
  { keepCopies :=
      if keepPath ≠ "" then [(sgf_file, keepPath ++ "/" ++ sgf_file)] else []
    debugCopies :=
      if debugPath ≠ "" then
        [(data_file, debugPath ++ "/" ++ data_file),
         (debug_data_file, debugPath ++ "/" ++ debug_data_file)]
      else []
    uploadFailureLogged := curlExit ≠ 0
    removed := [gz_file, data_file, debug_data_file] }

/-- Embedding of Production::uploadData: one iteration per directory entry
matching the record filter, each with its own curl exit code. -/
def uploadData (keepPath debugPath : String)
    (entries : List (String × Nat)) : List UploadOut :=
  entries.map fun m => uploadOne keepPath debugPath m.2 m.1

/-! ## Timing report (Production::printTimingInfo, lines 184-201) -/

/-- Embedding of Production::printTimingInfo. The guard at line 185 returns
before any printing when either counter is zero; otherwise the function
prints total minutes, seconds per game (total seconds divided by
gamesPlayed) and milliseconds per move (total milliseconds, one thousand
per second, divided by movesMade), returned here as the triple of printed
quotients. -/
def printTimingInfo (movesMade gamesPlayed totalTimeS : Nat) :
    Option (Nat × Nat × Nat) :=
  if movesMade = 0 ∨ gamesPlayed = 0 then
    none
  else
    some (totalTimeS / 60, totalTimeS / gamesPlayed,
          (totalTimeS * 1000) / movesMade)

/-! ## Result aggregation under the sync mutex (Production::getResult,
lines 172-182)

Each resultReady signal is delivered with Qt::DirectConnection (line 160),
so Production::getResult runs on the emitting worker thread and several
deliveries can race. The body brackets the counter update between
m_syncMutex.lock() and m_syncMutex.unlock(). The model below gives each
delivery a thread running the handler as four atomic micro steps: acquire
the mutex, read m_gamesPlayed, write the incremented value back, release
the mutex; an arbitrary scheduler interleaves the micro steps of all
threads, and the mutex acquisition only fires when the mutex is free. -/

/-- Program counter of one in-flight getResult call: before the lock, lock
held, counter read into a local, incremented value written back, handler
done. -/
inductive HandlerPC where
  | atStart
  | inLock
  | readDone
  | writeDone
  | finished
  deriving DecidableEq, Repr

/-- State of one delivery thread: its program counter and the local copy of
m_gamesPlayed it read. -/
structure ThreadSt where
  pc : HandlerPC
  localv : Nat
  deriving DecidableEq, Repr

/-- Shared state of the aggregation path: the delivery threads, the
m_gamesPlayed counter and the m_syncMutex. -/
structure AggSys where
  threads : List ThreadSt
  gamesPlayed : Nat
  locked : Bool
  deriving DecidableEq, Repr

/-- True for a program counter strictly between the lock and the unlock,
that is, for a thread currently inside the critical section of
getResult. -/
def busyPC : HandlerPC → Bool
  | HandlerPC.inLock => true
  | HandlerPC.readDone => true
  | HandlerPC.writeDone => true
  | _ => false

/-- True for a program counter at or past the write of the incremented
counter value. -/
def countedPC : HandlerPC → Bool
  | HandlerPC.writeDone => true
  | HandlerPC.finished => true
  | _ => false

/-- One scheduler step: run the next micro step of thread i, or nothing if
that thread cannot move (mutex held by someone else, or handler already
done, or no such thread). -/
def aggStep (g : AggSys) (i : Nat) : Option AggSys :=
  match g.threads[i]? with
  | none => none
  | some t =>
    match t.pc with
    | HandlerPC.atStart =>
        if g.locked then none
        else some { g with
          threads := g.threads.set i { t with pc := HandlerPC.inLock }
          locked := true }
    | HandlerPC.inLock =>
        some { g with
          threads := g.threads.set i
            { pc := HandlerPC.readDone, localv := g.gamesPlayed } }
    | HandlerPC.readDone =>
        some { g with
          threads := g.threads.set i { t with pc := HandlerPC.writeDone }
          gamesPlayed := t.localv + 1 }
    | HandlerPC.writeDone =>
        some { g with
          threads := g.threads.set i { t with pc := HandlerPC.finished }
          locked := false }
    | HandlerPC.finished => none

/-- Scheduling relation: some thread takes one micro step. -/
def AggStepRel (g g' : AggSys) : Prop := ∃ i, aggStep g i = some g'

/-- Reachability under arbitrary interleaving. -/
def AggReach (g g' : AggSys) : Prop := Relation.ReflTransGen AggStepRel g g'

/-- Initial state for n simultaneous completion deliveries: every thread
about to call getResult, counter zero, mutex free. -/
def aggInit (n : Nat) : AggSys :=
  { threads := List.replicate n { pc := HandlerPC.atStart, localv := 0 }
    gamesPlayed := 0
    locked := false }

/-- Executable test that no thread can take a step. Indices at or beyond
the thread count never step, so scanning the range suffices. -/
def aggTerminal (g : AggSys) : Bool :=
  (List.range g.threads.length).all fun i => (aggStep g i).isNone

/-- Invariant of the aggregation model: the mutex protects a unique
critical-section occupant, a free mutex means nobody is inside, a held
mutex means somebody is inside, the counter equals the number of threads
that have written, and a thread that has read but not yet written holds the
current counter value in its local. -/
structure AggInv (g : AggSys) : Prop where
  excl : ∀ (i j : Nat) (ti tj : ThreadSt), g.threads[i]? = some ti →
    g.threads[j]? = some tj →
    busyPC ti.pc = true → busyPC tj.pc = true → i = j
  lockFree : g.locked = false → ∀ (i : Nat) (ti : ThreadSt),
    g.threads[i]? = some ti → busyPC ti.pc = false
  lockBusy : g.locked = true → ∃ (i : Nat) (ti : ThreadSt),
    g.threads[i]? = some ti ∧ busyPC ti.pc = true
  count : g.gamesPlayed = g.threads.countP fun t => countedPC t.pc
  readv : ∀ (i : Nat) (ti : ThreadSt), g.threads[i]? = some ti →
    ti.pc = HandlerPC.readDone → ti.localv = g.gamesPlayed

/-! ## Theorems -/

/-- C1 counterexample: a completed RUNNING-state game whose getScore is
false, meaning no decisive score, still triggers exactly one resultReady
emission, because the emit at line 71 sits outside the getScore
conditional. The claim required zero emissions for this input. -/
theorem c1_counterexample :
    (workerHandleGameEnd RunState.RUNNING
        { score := false, file := "game1", duration := 42 }).emits
      = [("game1", 42)] ∧
    (workerHandleGameEnd RunState.RUNNING
        { score := false, file := "game1", duration := 42 }).emits ≠ [] := by
  exact ⟨rfl, by decide⟩

/-- C1 amended: a Worker observing state RUNNING after a completed game
emits resultReady exactly once whether or not the game produced a decisive
score; only the persistence of the game record and training data is
conditional on the decisive score. -/
theorem c1_amended (g : GameResult) :
    (workerHandleGameEnd RunState.RUNNING g).emits = [(g.file, g.duration)] ∧
    (workerHandleGameEnd RunState.RUNNING g).persisted = g.score := by
  exact ⟨rfl, rfl⟩

/-- C7: a Worker observing NET_CHANGE when a game completes sets its state
back to RUNNING, emits no resultReady for the interrupted game, and the
loop continues so the next iteration starts a fresh game: the emissions of
the whole run are exactly those of the remaining script and the interrupted
game still counts as started. -/
theorem c7_net_change_restarts (g : GameResult)
    (rest : List (RunState × GameResult)) :
    (workerHandleGameEnd RunState.NET_CHANGE g).state = RunState.RUNNING ∧
    (workerHandleGameEnd RunState.NET_CHANGE g).emits = [] ∧
    workerRun ((RunState.NET_CHANGE, g) :: rest)
      = ((workerRun rest).1, (workerRun rest).2 + 1) := by
  refine ⟨rfl, rfl, ?_⟩
  cases h : workerRun rest with
  | mk a b => simp [workerRun, workerHandleGameEnd, h]

/-- Shared helper: networkExists on an existing, readable file whose
content hash does not match the given name returns false and removes the
file. -/
theorem networkExists_mismatch (network : String) (f : FileStatus)
    (hex : f.fileExists = true) (hop : f.openOk = true)
    (hrd : f.readOk = true) (hne : f.contentHash ≠ network) :
    networkExists network f = (ExistsRes.ret false, true) := by
  simp [networkExists, hex, hop, hrd, hne]

/-- C6: an existing local model file that opens and reads but whose content
hash does not match the current model identifier makes networkExists return
false with the file deleted. -/
theorem c6_hash_mismatch_deletes (network : String) (f : FileStatus)
    (hex : f.fileExists = true) (hop : f.openOk = true)
    (hrd : f.readOk = true) (hne : f.contentHash ≠ network) :
    networkExists network f = (ExistsRes.ret false, true) :=
  networkExists_mismatch network f hex hop hrd hne

/-- C6 witness: concrete mismatching file. -/
theorem c6_hash_mismatch_deletes_witness :
    networkExists "aabb"
      { fileExists := true, openOk := true, readOk := true,
        removeOk := true, contentHash := "ccdd" }
      = (ExistsRes.ret false, true) :=
  c6_hash_mismatch_deletes "aabb"
    { fileExists := true, openOk := true, readOk := true,
      removeOk := true, contentHash := "ccdd" }
    rfl rfl rfl (by decide)

/-- C8: a non-zero submission exit code is only logged, the call returns
normally (the UploadOut type of uploadOne has no fatal or thrown
alternative, matching the absence of exit and throw in lines 337-398), and
the compressed record, training data and debug data files are removed
regardless of the exit code. -/
theorem c8_upload_failure_recoverable (keepPath debugPath : String)
    (curlExit : Nat) (sgf : String) :
    (uploadOne keepPath debugPath curlExit sgf).removed
      = [sgf ++ ".gz", sgf.dropRight 4 ++ ".txt.0.gz",
         sgf.dropRight 4 ++ ".txt.debug.0.gz"] ∧
    (curlExit ≠ 0 →
      (uploadOne keepPath debugPath curlExit sgf).uploadFailureLogged
        = true) := by
  constructor
  · rfl
  · intro h
    simp [uploadOne, h]

/-- C8 witness: concrete failed upload. -/
theorem c8_upload_failure_recoverable_witness :
    (uploadOne "" "" 7 "abc.sgf").uploadFailureLogged = true :=
  (c8_upload_failure_recoverable "" "" 7 "abc.sgf").2 (by decide)

/-- C10: printTimingInfo returns none, printing nothing, when either
counter is zero, and any printed output implies both divisors were
positive, so the divisions by gamesPlayed and by movesMade never divide by
zero. -/
theorem c10_no_division_by_zero (movesMade gamesPlayed totalTimeS : Nat) :
    (movesMade = 0 ∨ gamesPlayed = 0 →
      printTimingInfo movesMade gamesPlayed totalTimeS = none) ∧
    (∀ out, printTimingInfo movesMade gamesPlayed totalTimeS = some out →
      0 < movesMade ∧ 0 < gamesPlayed) := by
  constructor
  · intro h
    simp [printTimingInfo, h]
  · intro out h
    by_cases hz : movesMade = 0 ∨ gamesPlayed = 0
    · simp [printTimingInfo, hz] at h
    · push_neg at hz
      omega

/-- C10 witness: zero moves suppress the report. -/
theorem c10_no_division_by_zero_witness :
    printTimingInfo 0 5 1000 = none :=
  (c10_no_division_by_zero 0 5 1000).1 (Or.inl rfl)

/-- C2 counterexample: a refresh whose freshly downloaded model file has a
content hash differing from its claimed name deletes the corrupt file and
then exits the process with failure status at line 331; it performs no
further attempt. The concrete run below changes the identifier from h1 to
h2, downloads successfully, finds the content hash WRONG instead of h2, and
ends in a process exit after one attempt, refuting the claimed retry. -/
theorem c2_counterexample :
    (updateNetwork 1 "h1" (fun _ =>
      { hashEnv := { curlExit := 0, outLines := ["h2", "1"] }
        dlEnv :=
          { localFile :=
              { fileExists := false, openOk := true, readOk := true,
                removeOk := true, contentHash := "" }
            curlExit := 0
            outLines := ["h2.gz"]
            downloadedFile :=
              { fileExists := true, openOk := true, readOk := true,
                removeOk := true, contentHash := "WRONG" } } }))
      = { res := UpdateRes.fatalExit, attempts := 1, delays := []
          network := "h2", downloadAttempted := true
          deletedCorrupt := true } := by
  decide

/-- C2 amended: when the download runs (no validated local copy), the curl
transfer succeeds, and the downloaded file exists and reads but its content
hash does not match its claimed name, fetchBestNetwork deletes the corrupt
file and exits the process with failure status; the refresh cycle is not
retried. -/
theorem c2_amended (network : String) (env : DownloadEnv)
    (hlocal : (networkExists network env.localFile).1 = ExistsRes.ret false)
    (hcurl : env.curlExit = 0)
    (hex : env.downloadedFile.fileExists = true)
    (hop : env.downloadedFile.openOk = true)
    (hrd : env.downloadedFile.readOk = true)
    (hne : env.downloadedFile.contentHash
      ≠ (env.outLines.headD "").dropRight 3) :
    fetchBestNetwork network env
      = { res := FetchRes.fatalExit
          network := (env.outLines.headD "").dropRight 3
          downloadAttempted := true, deletedCorrupt := true } := by
  have h2 : networkExists ((env.outLines.headD "").dropRight 3)
      env.downloadedFile = (ExistsRes.ret false, true) :=
    networkExists_mismatch _ _ hex hop hrd hne
  cases h1 : networkExists network env.localFile with
  | mk r rm =>
      rw [h1] at hlocal
      simp only at hlocal
      subst hlocal
      simp only [List.headD_eq_head?] at h2
      simp [fetchBestNetwork, h1, hcurl, h2]

/-- C2 amended witness: concrete corrupt download ends fatally. -/
theorem c2_amended_witness :
    fetchBestNetwork "h1"
      { localFile :=
          { fileExists := false, openOk := true, readOk := true,
            removeOk := true, contentHash := "" }
        curlExit := 0
        outLines := ["h2.gz"]
        downloadedFile :=
          { fileExists := true, openOk := true, readOk := true,
            removeOk := true, contentHash := "WRONG" } }
      = { res := FetchRes.fatalExit, network := "h2"
          downloadAttempted := true, deletedCorrupt := true } :=
  c2_amended "h1" _ (by decide) rfl rfl rfl rfl (by decide)

/-- C3 counterexample: a refresh in which the server-reported best hash
equals the current model identifier returns unchanged, yet a download is
still attempted whenever the local copy of the model file is missing,
because updateNetwork calls fetchBestNetwork unconditionally after
fetchBestNetworkHash. The claim required that no download be attempted. -/
theorem c3_counterexample :
    (updateNetwork 1 "abc" (fun _ =>
      { hashEnv := { curlExit := 0, outLines := ["abc", "1"] }
        dlEnv :=
          { localFile :=
              { fileExists := false, openOk := true, readOk := true,
                removeOk := true, contentHash := "" }
            curlExit := 0
            outLines := ["abc.gz"]
            downloadedFile :=
              { fileExists := true, openOk := true, readOk := true,
                removeOk := true, contentHash := "abc" } } })).res
      = UpdateRes.ok true ∧
    (updateNetwork 1 "abc" (fun _ =>
      { hashEnv := { curlExit := 0, outLines := ["abc", "1"] }
        dlEnv :=
          { localFile :=
              { fileExists := false, openOk := true, readOk := true,
                removeOk := true, contentHash := "" }
            curlExit := 0
            outLines := ["abc.gz"]
            downloadedFile :=
              { fileExists := true, openOk := true, readOk := true,
                removeOk := true, contentHash := "abc" } } })).downloadAttempted
      = true := by
  decide

/-- C3 amended: when the hash endpoint reports the identifier already
active, the attempt returns unchanged = true; no download is attempted
provided the local model file validates, and a download is attempted
exactly when it does not. -/
theorem c3_amended (version : Int) (network : String) (env : AttemptEnv)
    (hhash : fetchBestNetworkHash version network env.hashEnv
      = (HashRes.ok true, network)) :
    (networkExists network env.dlEnv.localFile = (ExistsRes.ret true, false) →
      refreshAttempt version network env
        = { res := AttemptRes.ok true, network := network
            downloadAttempted := false, deletedCorrupt := false }) ∧
    ((networkExists network env.dlEnv.localFile).1 = ExistsRes.ret false →
      (refreshAttempt version network env).downloadAttempted = true) := by
  constructor
  · intro hloc
    simp [refreshAttempt, hhash, fetchBestNetwork, hloc]
  · intro hloc
    cases h1 : networkExists network env.dlEnv.localFile with
    | mk r rm =>
        rw [h1] at hloc
        simp only at hloc
        subst hloc
        by_cases hc : env.dlEnv.curlExit = 0
        · cases h2 : networkExists ((env.dlEnv.outLines.head?.getD "").dropRight 3)
              env.dlEnv.downloadedFile with
          | mk r2 rm2 =>
              cases r2 with
              | ret b =>
                  cases b <;>
                    simp [refreshAttempt, hhash, fetchBestNetwork, h1, hc, h2]
              | fatalExit =>
                  simp [refreshAttempt, hhash, fetchBestNetwork, h1, hc, h2]
        · simp [refreshAttempt, hhash, fetchBestNetwork, h1, hc]

/-- C3 amended witness: validated local copy, unchanged hash, no
download. -/
theorem c3_amended_witness :
    refreshAttempt 1 "abc"
      { hashEnv := { curlExit := 0, outLines := ["abc", "1"] }
        dlEnv :=
          { localFile :=
              { fileExists := true, openOk := true, readOk := true,
                removeOk := true, contentHash := "abc" }
            curlExit := 0
            outLines := ["abc.gz"]
            downloadedFile :=
              { fileExists := true, openOk := true, readOk := true,
                removeOk := true, contentHash := "abc" } } }
      = { res := AttemptRes.ok true, network := "abc"
          downloadAttempted := false, deletedCorrupt := false } :=
  (c3_amended 1 "abc" _ (by decide)).1 (by decide)

/-- C4 counterexample: at attempt index 2 the code sleeps 67 seconds, the
int truncation of 30 * 1.5 ^ 2 = 67.5, while the claimed formula
min(30 * 1.5 ^ i, 3600) gives 67.5 seconds, so the delay does not equal the
claimed value. -/
theorem c4_counterexample :
    retryDelay 2 = some 67 ∧
    ((67 : ℚ)
      ≠ min ((RETRY_DELAY_MIN_SEC : ℚ) * (3 / 2) ^ 2)
          (RETRY_DELAY_MAX_SEC : ℚ)) := by
  constructor
  · rfl
  · norm_num [RETRY_DELAY_MIN_SEC, RETRY_DELAY_MAX_SEC, min_def]

/-- C4 amended: for every attempt index i up to 44 the backoff delay equals
the integer truncation min(floor(30 * 1.5 ^ i), 3600) seconds; over the
indices where a delay is defined it is non-decreasing and never exceeds
3600 seconds; for every index of 45 or more the double exceeds INT_MAX, the
double-to-int conversion at lines 134-137 is undefined behavior, and no
delay value is asserted. -/
theorem c4_amended :
    (∀ i : Nat, i < 45 → retryDelay i
      = some (min (Nat.floor ((RETRY_DELAY_MIN_SEC : ℚ) * (3 / 2) ^ i))
          RETRY_DELAY_MAX_SEC)) ∧
    (∀ i : Nat, 45 ≤ i → retryDelay i = none) ∧
    (∀ i j di dj : Nat, i ≤ j → retryDelay i = some di →
      retryDelay j = some dj → di ≤ dj) ∧
    (∀ i d : Nat, retryDelay i = some d → d ≤ 3600) := by
  have hval : ∀ i di : Nat, retryDelay i = some di → di = retryDelayVal i := by
    intro i di h
    unfold retryDelay at h
    split at h
    · exact (Option.some.inj h).symm
    · exact Option.noConfusion h
  have hmono : ∀ i j : Nat, i ≤ j → retryDelayVal i ≤ retryDelayVal j := by
    have hstep : ∀ i : Nat, retryDelayVal i ≤ retryDelayVal (i + 1) := by
      intro i
      have hdiv : RETRY_DELAY_MIN_SEC * 3 ^ i / 2 ^ i
          ≤ RETRY_DELAY_MIN_SEC * 3 ^ (i + 1) / 2 ^ (i + 1) := by
        rw [Nat.le_div_iff_mul_le (Nat.pos_pow_of_pos (i + 1) (by norm_num))]
        have h1 : RETRY_DELAY_MIN_SEC * 3 ^ i / 2 ^ i * 2 ^ i
            ≤ RETRY_DELAY_MIN_SEC * 3 ^ i :=
          Nat.div_mul_le_self _ _
        calc RETRY_DELAY_MIN_SEC * 3 ^ i / 2 ^ i * 2 ^ (i + 1)
            = RETRY_DELAY_MIN_SEC * 3 ^ i / 2 ^ i * 2 ^ i * 2 := by ring
          _ ≤ RETRY_DELAY_MIN_SEC * 3 ^ i * 2 :=
              Nat.mul_le_mul_right 2 h1
          _ ≤ RETRY_DELAY_MIN_SEC * 3 ^ i * 3 :=
              Nat.mul_le_mul_left _ (by norm_num)
          _ = RETRY_DELAY_MIN_SEC * 3 ^ (i + 1) := by ring
      exact min_le_min hdiv (le_refl RETRY_DELAY_MAX_SEC)
    intro i j hij
    exact monotone_nat_of_le_succ hstep hij
  refine ⟨?_, ?_, ?_, ?_⟩
  · intro i hi
    have hin : ∀ k : Nat, k < 45 →
        RETRY_DELAY_MIN_SEC * 3 ^ k < 2 ^ 31 * 2 ^ k := by decide
    unfold retryDelay
    rw [if_pos (hin i hi)]
    have hcast : (RETRY_DELAY_MIN_SEC : ℚ) * (3 / 2) ^ i
        = ((RETRY_DELAY_MIN_SEC * 3 ^ i : Nat) : ℚ) / ((2 ^ i : Nat) : ℚ) := by
      push_cast
      rw [div_pow]
      ring
    rw [hcast, Nat.floor_div_eq_div]
    rfl
  · intro i hi
    have hout : 2 ^ 31 * 2 ^ i ≤ RETRY_DELAY_MIN_SEC * 3 ^ i := by
      induction i, hi using Nat.le_induction with
      | base => decide
      | succ n hn ih =>
          calc 2 ^ 31 * 2 ^ (n + 1) = 2 ^ 31 * 2 ^ n * 2 := by ring
            _ ≤ RETRY_DELAY_MIN_SEC * 3 ^ n * 2 :=
                Nat.mul_le_mul_right 2 ih
            _ ≤ RETRY_DELAY_MIN_SEC * 3 ^ n * 3 :=
                Nat.mul_le_mul_left _ (by norm_num)
            _ = RETRY_DELAY_MIN_SEC * 3 ^ (n + 1) := by ring
    unfold retryDelay
    rw [if_neg (Nat.not_lt.mpr hout)]
  · intro i j di dj hij hi hj
    rw [hval i di hi, hval j dj hj]
    exact hmono i j hij
  · intro i d h
    rw [hval i d h]
    exact min_le_right _ _

/-- C4 amended witness: the delay at attempt index 2 matches the floor
formula, and attempt index 45 has no defined delay. -/
theorem c4_amended_witness :
    retryDelay 2
      = some (min (Nat.floor ((RETRY_DELAY_MIN_SEC : ℚ) * (3 / 2) ^ 2))
          RETRY_DELAY_MAX_SEC) ∧
    retryDelay 45 = none :=
  ⟨c4_amended.1 2 (by norm_num), c4_amended.2.1 45 (le_refl 45)⟩

/-- C5: when every attempt of one refresh call raises a retryable
NetworkError, the retry loop performs exactly MAX_RETRIES = 96 attempts and
then gives up fatally (the exit after the loop at line 145), never fewer
and never more; and the attempt counter is local to the call: the loop of
any call starts at attempt index 0, so a first attempt that succeeds ends
the call after exactly one attempt whatever happened in previous calls. -/
theorem c5_retry_budget (version : Int) (network : String)
    (envs : Nat → AttemptEnv) :
    ((∀ (j : Nat) (n : String),
        (refreshAttempt version n (envs j)).res = AttemptRes.netErr) →
      (updateNetwork version network envs).res = UpdateRes.gaveUp ∧
      (updateNetwork version network envs).attempts = 96) ∧
    (∀ u : Bool, (refreshAttempt version network (envs 0)).res
        = AttemptRes.ok u →
      (updateNetwork version network envs).res = UpdateRes.ok u ∧
      (updateNetwork version network envs).attempts = 1) := by
  constructor
  · intro hall
    have aux : ∀ (fuel i : Nat) (net : String),
        (updateNetworkAux version envs net i fuel).res = UpdateRes.gaveUp ∧
        (updateNetworkAux version envs net i fuel).attempts = fuel := by
      intro fuel
      induction fuel with
      | zero =>
        intro i net
        exact ⟨rfl, rfl⟩
      | succ f ih =>
        intro i net
        have hr := hall i net
        obtain ⟨ih1, ih2⟩ :=
          ih (i + 1) ((refreshAttempt version net (envs i)).network)
        simp only [updateNetworkAux, hr]
        exact ⟨ih1, by rw [ih2]⟩
    have h96 : MAX_RETRIES = 96 := rfl
    have := aux MAX_RETRIES 0 network
    rw [h96] at this
    exact this
  · intro u hok
    have h96 : MAX_RETRIES = 95 + 1 := rfl
    constructor
    · show (updateNetworkAux version envs network 0 MAX_RETRIES).res = _
      rw [h96]
      simp only [updateNetworkAux, hok]
    · show (updateNetworkAux version envs network 0 MAX_RETRIES).attempts = _
      rw [h96]
      simp only [updateNetworkAux, hok]

/-- C5 witness: with a hash endpoint whose transfer always fails, the
refresh gives up after exactly 96 attempts; the hypothesis of every attempt
failing holds for any current identifier. -/
theorem c5_retry_budget_witness :
    (updateNetwork 1 "net"
      (fun _ =>
        { hashEnv := { curlExit := 1, outLines := [] }
          dlEnv :=
            { localFile :=
                { fileExists := false, openOk := true, readOk := true,
                  removeOk := true, contentHash := "" }
              curlExit := 0
              outLines := []
              downloadedFile :=
                { fileExists := false, openOk := true, readOk := true,
                  removeOk := true, contentHash := "" } } })).res
      = UpdateRes.gaveUp ∧
    (updateNetwork 1 "net"
      (fun _ =>
        { hashEnv := { curlExit := 1, outLines := [] }
          dlEnv :=
            { localFile :=
                { fileExists := false, openOk := true, readOk := true,
                  removeOk := true, contentHash := "" }
              curlExit := 0
              outLines := []
              downloadedFile :=
                { fileExists := false, openOk := true, readOk := true,
                  removeOk := true, contentHash := "" } } })).attempts
      = 96 :=
  (c5_retry_budget 1 "net" _).1 (fun j n => rfl)

/-! ### Helper lemmas for the aggregation model -/

/-- Reading an updated list either hits the updated index or an untouched
entry of the original list. -/
theorem getElem?_set_cases {α : Type} {l : List α} {i j : Nat} {a b : α}
    (h : (l.set i a)[j]? = some b) :
    (j = i ∧ b = a) ∨ (j ≠ i ∧ l[j]? = some b) := by
  by_cases hj : j = i
  · subst hj
    left
    refine ⟨rfl, ?_⟩
    have hlt : j < l.length := by
      have := (List.getElem?_eq_some.mp h).1
      rwa [List.length_set] at this
    rw [List.getElem?_set_eq_of_lt a hlt] at h
    exact (Option.some.inj h).symm
  · right
    exact ⟨hj, by rwa [List.getElem?_set_ne (fun hij => hj hij.symm)] at h⟩

/-- Effect of a list update on a countP tally, phrased without
subtraction. -/
theorem countP_set_balance {α : Type} (p : α → Bool) :
    ∀ (l : List α) (i : Nat) (a t : α), l[i]? = some t →
      (l.set i a).countP p + (if p t then 1 else 0)
        = l.countP p + (if p a then 1 else 0) := by
  intro l
  induction l with
  | nil =>
      intro i a t h
      simp at h
  | cons x xs ih =>
      intro i a t h
      cases i with
      | zero =>
          simp only [List.getElem?_cons_zero] at h
          obtain rfl := Option.some.inj h
          simp only [List.set_cons_zero, List.countP_cons]
          omega
      | succ n =>
          simp only [List.getElem?_cons_succ] at h
          have hx := ih n a t h
          simp only [List.set_cons_succ, List.countP_cons]
          omega

/-- Every entry of the initial aggregation state is a thread about to run
the handler. -/
theorem aggInit_entries (n : Nat) :
    ∀ (j : Nat) (t : ThreadSt), (aggInit n).threads[j]? = some t →
      t = { pc := HandlerPC.atStart, localv := 0 } := by
  intro j t h
  dsimp only [aggInit] at h
  rw [List.getElem?_replicate] at h
  split at h
  · exact (Option.some.inj h).symm
  · cases h

/-- The invariant holds in the initial aggregation state. -/
theorem aggInit_inv (n : Nat) : AggInv (aggInit n) := by
  refine { excl := ?_, lockFree := ?_, lockBusy := ?_, count := ?_,
           readv := ?_ }
  · intro j k tj tk hj hk hbj hbk
    rw [aggInit_entries n j tj hj] at hbj
    exact absurd hbj (by decide)
  · intro _ j tj hj
    rw [aggInit_entries n j tj hj]
    rfl
  · intro h
    dsimp only [aggInit] at h
    exact Bool.noConfusion h
  · show (0 : Nat) = _
    symm
    rw [List.countP_eq_zero]
    intro a ha
    rw [List.eq_of_mem_replicate ha]
    decide
  · intro j tj hj hpc
    rw [aggInit_entries n j tj hj] at hpc
    exact absurd hpc (by decide)

/-- One scheduler step preserves the number of threads. -/
theorem aggStep_length {g g' : AggSys} {i : Nat}
    (h : aggStep g i = some g') : g'.threads.length = g.threads.length := by
  cases ht : g.threads[i]? with
  | none =>
      simp only [aggStep, ht] at h
      exact Option.noConfusion h
  | some t =>
      cases hpc : t.pc
      all_goals simp only [aggStep, ht, hpc] at h
      case atStart =>
          cases hl : g.locked
          · rw [hl] at h
            simp only [Bool.false_eq_true, if_false] at h
            obtain rfl := Option.some.inj h
            exact List.length_set ..
          · rw [hl] at h
            simp at h
      case finished => exact Option.noConfusion h
      all_goals
        obtain rfl := Option.some.inj h
      all_goals
        exact List.length_set ..

/-- One scheduler step preserves the aggregation invariant. -/
theorem aggStep_inv {g g' : AggSys} {i : Nat} (hinv : AggInv g)
    (hstep : aggStep g i = some g') : AggInv g' := by
  cases ht : g.threads[i]? with
  | none =>
      simp only [aggStep, ht] at hstep
      exact Option.noConfusion hstep
  | some t =>
      have hi : i < g.threads.length := (List.getElem?_eq_some.mp ht).1
      cases hpc : t.pc
      all_goals simp only [aggStep, ht, hpc] at hstep
      case atStart =>
        cases hl : g.locked
        case true =>
          rw [hl] at hstep
          simp at hstep
        case false =>
          rw [hl] at hstep
          simp only [Bool.false_eq_true, if_false] at hstep
          obtain rfl := Option.some.inj hstep
          have hset : (g.threads.set i { t with pc := HandlerPC.inLock })[i]?
              = some { t with pc := HandlerPC.inLock } :=
            List.getElem?_set_eq_of_lt _ hi
          refine { excl := ?_, lockFree := ?_, lockBusy := ?_, count := ?_,
                   readv := ?_ }
          · intro j k tj tk hj hk hbj hbk
            rcases getElem?_set_cases hj with ⟨hje, _⟩ | ⟨hjne, hjold⟩
            · rcases getElem?_set_cases hk with ⟨hke, _⟩ | ⟨hkne, hkold⟩
              · rw [hje, hke]
              · exact absurd hbk
                  (by rw [hinv.lockFree hl k tk hkold]; decide)
            · exact absurd hbj (by rw [hinv.lockFree hl j tj hjold]; decide)
          · intro hcon
            simp at hcon
          · intro _
            exact ⟨i, { t with pc := HandlerPC.inLock }, hset, rfl⟩
          · show g.gamesPlayed = List.countP (fun s => countedPC s.pc)
                (g.threads.set i { t with pc := HandlerPC.inLock })
            have hc := countP_set_balance (fun s => countedPC s.pc) g.threads
              i { t with pc := HandlerPC.inLock } t ht
            simp only [hpc,
              show countedPC HandlerPC.atStart = false from rfl,
              show countedPC HandlerPC.inLock = false from rfl] at hc
            norm_num at hc
            have hcount := hinv.count
            omega
          · intro j tj hj hpcj
            rcases getElem?_set_cases hj with ⟨hje, hbe⟩ | ⟨hjne, hjold⟩
            · rw [hbe] at hpcj
              simp at hpcj
            · exact hinv.readv j tj hjold hpcj
      case inLock =>
        obtain rfl := Option.some.inj hstep
        have hbusy : busyPC t.pc = true := by rw [hpc]; rfl
        have hlocked : g.locked = true := by
          cases hl : g.locked
          · rw [hinv.lockFree hl i t ht] at hbusy
            exact absurd hbusy (by decide)
          · rfl
        have huniq : ∀ (j : Nat) (tj : ThreadSt), g.threads[j]? = some tj →
            busyPC tj.pc = true → j = i :=
          fun j tj hj hb => hinv.excl j i tj t hj ht hb hbusy
        have hset : (g.threads.set i
              { pc := HandlerPC.readDone, localv := g.gamesPlayed })[i]?
            = some { pc := HandlerPC.readDone, localv := g.gamesPlayed } :=
          List.getElem?_set_eq_of_lt _ hi
        refine { excl := ?_, lockFree := ?_, lockBusy := ?_, count := ?_,
                 readv := ?_ }
        · intro j k tj tk hj hk hbj hbk
          have hj' : j = i := by
            rcases getElem?_set_cases hj with ⟨hje, _⟩ | ⟨hjne, hjold⟩
            · exact hje
            · exact absurd (huniq j tj hjold hbj) hjne
          have hk' : k = i := by
            rcases getElem?_set_cases hk with ⟨hke, _⟩ | ⟨hkne, hkold⟩
            · exact hke
            · exact absurd (huniq k tk hkold hbk) hkne
          rw [hj', hk']
        · intro hcon
          simp [hlocked] at hcon
        · intro _
          exact ⟨i, { pc := HandlerPC.readDone, localv := g.gamesPlayed },
            hset, rfl⟩
        · show g.gamesPlayed = List.countP (fun s => countedPC s.pc)
              (g.threads.set i
                { pc := HandlerPC.readDone, localv := g.gamesPlayed })
          have hc := countP_set_balance (fun s => countedPC s.pc) g.threads
            i { pc := HandlerPC.readDone, localv := g.gamesPlayed } t ht
          simp only [hpc,
            show countedPC HandlerPC.inLock = false from rfl,
            show countedPC HandlerPC.readDone = false from rfl] at hc
          norm_num at hc
          have hcount := hinv.count
          omega
        · intro j tj hj hpcj
          rcases getElem?_set_cases hj with ⟨hje, hbe⟩ | ⟨hjne, hjold⟩
          · rw [hbe]
          · exact absurd (huniq j tj hjold (by rw [hpcj]; rfl))
              hjne
      case readDone =>
        obtain rfl := Option.some.inj hstep
        have hbusy : busyPC t.pc = true := by rw [hpc]; rfl
        have hlocked : g.locked = true := by
          cases hl : g.locked
          · rw [hinv.lockFree hl i t ht] at hbusy
            exact absurd hbusy (by decide)
          · rfl
        have huniq : ∀ (j : Nat) (tj : ThreadSt), g.threads[j]? = some tj →
            busyPC tj.pc = true → j = i :=
          fun j tj hj hb => hinv.excl j i tj t hj ht hb hbusy
        have hlv : t.localv = g.gamesPlayed := hinv.readv i t ht hpc
        have hset : (g.threads.set i { t with pc := HandlerPC.writeDone })[i]?
            = some { t with pc := HandlerPC.writeDone } :=
          List.getElem?_set_eq_of_lt _ hi
        refine { excl := ?_, lockFree := ?_, lockBusy := ?_, count := ?_,
                 readv := ?_ }
        · intro j k tj tk hj hk hbj hbk
          have hj' : j = i := by
            rcases getElem?_set_cases hj with ⟨hje, _⟩ | ⟨hjne, hjold⟩
            · exact hje
            · exact absurd (huniq j tj hjold hbj) hjne
          have hk' : k = i := by
            rcases getElem?_set_cases hk with ⟨hke, _⟩ | ⟨hkne, hkold⟩
            · exact hke
            · exact absurd (huniq k tk hkold hbk) hkne
          rw [hj', hk']
        · intro hcon
          simp [hlocked] at hcon
        · intro _
          exact ⟨i, { t with pc := HandlerPC.writeDone }, hset, rfl⟩
        · show t.localv + 1 = List.countP (fun s => countedPC s.pc)
              (g.threads.set i { t with pc := HandlerPC.writeDone })
          have hc := countP_set_balance (fun s => countedPC s.pc) g.threads
            i { t with pc := HandlerPC.writeDone } t ht
          simp only [hpc,
            show countedPC HandlerPC.readDone = false from rfl,
            show countedPC HandlerPC.writeDone = true from rfl] at hc
          norm_num at hc
          have hcount := hinv.count
          have hlv2 := hlv
          omega
        · intro j tj hj hpcj
          rcases getElem?_set_cases hj with ⟨hje, hbe⟩ | ⟨hjne, hjold⟩
          · rw [hbe] at hpcj
            simp at hpcj
          · exact absurd (huniq j tj hjold (by rw [hpcj]; rfl))
              hjne
      case writeDone =>
        obtain rfl := Option.some.inj hstep
        have hbusy : busyPC t.pc = true := by rw [hpc]; rfl
        have huniq : ∀ (j : Nat) (tj : ThreadSt), g.threads[j]? = some tj →
            busyPC tj.pc = true → j = i :=
          fun j tj hj hb => hinv.excl j i tj t hj ht hb hbusy
        refine { excl := ?_, lockFree := ?_, lockBusy := ?_, count := ?_,
                 readv := ?_ }
        · intro j k tj tk hj hk hbj hbk
          exfalso
          rcases getElem?_set_cases hj with ⟨hje, hbe⟩ | ⟨hjne, hjold⟩
          · rw [hbe] at hbj
            simp [busyPC] at hbj
          · exact absurd (huniq j tj hjold hbj) hjne
        · intro _ j tj hj
          rcases getElem?_set_cases hj with ⟨hje, hbe⟩ | ⟨hjne, hjold⟩
          · rw [hbe]
            rfl
          · rcases Bool.eq_false_or_eq_true (busyPC tj.pc) with hb | hb
            · exact absurd (huniq j tj hjold hb) hjne
            · exact hb
        · intro hcon
          simp at hcon
        · show g.gamesPlayed = List.countP (fun s => countedPC s.pc)
              (g.threads.set i { t with pc := HandlerPC.finished })
          have hc := countP_set_balance (fun s => countedPC s.pc) g.threads
            i { t with pc := HandlerPC.finished } t ht
          simp only [hpc,
            show countedPC HandlerPC.writeDone = true from rfl,
            show countedPC HandlerPC.finished = true from rfl] at hc
          norm_num at hc
          have hcount := hinv.count
          omega
        · intro j tj hj hpcj
          rcases getElem?_set_cases hj with ⟨hje, hbe⟩ | ⟨hjne, hjold⟩
          · rw [hbe] at hpcj
            simp at hpcj
          · exact absurd (huniq j tj hjold (by rw [hpcj]; rfl))
              hjne
      case finished => exact Option.noConfusion hstep

/-- Every state reachable from the initial aggregation state satisfies the
invariant. -/
theorem aggReach_inv {n : Nat} {g : AggSys} (h : AggReach (aggInit n) g) :
    AggInv g := by
  have h' : Relation.ReflTransGen AggStepRel (aggInit n) g := h
  clear h
  induction h' with
  | refl => exact aggInit_inv n
  | tail hab hbc ih =>
      obtain ⟨i, hi⟩ := hbc
      exact aggStep_inv ih hi

/-- Reachable states keep the number of delivery threads. -/
theorem aggReach_length {n : Nat} {g : AggSys} (h : AggReach (aggInit n) g) :
    g.threads.length = n := by
  have h' : Relation.ReflTransGen AggStepRel (aggInit n) g := h
  clear h
  induction h' with
  | refl => exact List.length_replicate ..
  | tail hab hbc ih =>
      obtain ⟨i, hi⟩ := hbc
      rw [aggStep_length hi]
      exact ih

/-- In a terminal invariant state every delivery thread has finished the
handler. -/
theorem aggTerminal_finished {g : AggSys} (hinv : AggInv g)
    (hterm : aggTerminal g = true) :
    ∀ (j : Nat) (t : ThreadSt), g.threads[j]? = some t →
      t.pc = HandlerPC.finished := by
  have hnone : ∀ k : Nat, k < g.threads.length → aggStep g k = none := by
    intro k hk
    have := List.all_eq_true.mp hterm k (List.mem_range.mpr hk)
    exact Option.isNone_iff_eq_none.mp this
  intro j t hjt
  have hj : j < g.threads.length := (List.getElem?_eq_some.mp hjt).1
  have hstepj := hnone j hj
  simp only [aggStep, hjt] at hstepj
  cases hpc : t.pc
  case finished => rfl
  case atStart =>
    exfalso
    rw [hpc] at hstepj
    simp only at hstepj
    cases hl : g.locked
    case false =>
      rw [hl] at hstepj
      simp at hstepj
    case true =>
      obtain ⟨k, tk, hk, hbk⟩ := hinv.lockBusy hl
      have hk' : k < g.threads.length := (List.getElem?_eq_some.mp hk).1
      have hsk := hnone k hk'
      simp only [aggStep, hk] at hsk
      cases hpck : tk.pc
      all_goals rw [hpck] at hbk hsk
      case atStart => exact absurd hbk (by decide)
      case finished => exact absurd hbk (by decide)
      all_goals simp at hsk
  all_goals
    exfalso
    rw [hpc] at hstepj
    simp at hstepj

/-- C9: the aggregation handler is serialized by the sync mutex. In every
state reachable from N simultaneous completion deliveries, at most one
delivery is inside the getResult critical section, and every completed
schedule, one in which no thread can take a further step, leaves the
gamesPlayed counter at exactly N: each of the N deliveries increments it
exactly once and no update is lost. -/
theorem c9_aggregation_serialized (n : Nat) (g : AggSys)
    (hreach : AggReach (aggInit n) g) :
    (∀ (i j : Nat) (ti tj : ThreadSt), g.threads[i]? = some ti →
      g.threads[j]? = some tj → busyPC ti.pc = true → busyPC tj.pc = true →
      i = j) ∧
    (aggTerminal g = true → g.gamesPlayed = n) := by
  have hinv := aggReach_inv hreach
  refine ⟨hinv.excl, fun hterm => ?_⟩
  have hfin := aggTerminal_finished hinv hterm
  have hall : g.threads.countP (fun t => countedPC t.pc)
      = g.threads.length := by
    rw [List.countP_eq_length]
    intro a ha
    obtain ⟨k, hk⟩ := List.mem_iff_getElem?.mp ha
    rw [hfin k a hk]
    decide
  rw [hinv.count, hall]
  exact aggReach_length hreach

/-- C9 witness: two simultaneous deliveries scheduled one after the other
reach a terminal state whose counter is exactly 2. -/
theorem c9_aggregation_serialized_witness :
    (AggSys.mk [{ pc := HandlerPC.finished, localv := 0 },
                { pc := HandlerPC.finished, localv := 1 }] 2 false).gamesPlayed
      = 2 := by
  have h01 : AggStepRel (aggInit 2)
      (AggSys.mk [{ pc := HandlerPC.inLock, localv := 0 },
                  { pc := HandlerPC.atStart, localv := 0 }] 0 true) :=
    ⟨0, by decide⟩
  have h12 : AggStepRel
      (AggSys.mk [{ pc := HandlerPC.inLock, localv := 0 },
                  { pc := HandlerPC.atStart, localv := 0 }] 0 true)
      (AggSys.mk [{ pc := HandlerPC.readDone, localv := 0 },
                  { pc := HandlerPC.atStart, localv := 0 }] 0 true) :=
    ⟨0, by decide⟩
  have h23 : AggStepRel
      (AggSys.mk [{ pc := HandlerPC.readDone, localv := 0 },
                  { pc := HandlerPC.atStart, localv := 0 }] 0 true)
      (AggSys.mk [{ pc := HandlerPC.writeDone, localv := 0 },
                  { pc := HandlerPC.atStart, localv := 0 }] 1 true) :=
    ⟨0, by decide⟩
  have h34 : AggStepRel
      (AggSys.mk [{ pc := HandlerPC.writeDone, localv := 0 },
                  { pc := HandlerPC.atStart, localv := 0 }] 1 true)
      (AggSys.mk [{ pc := HandlerPC.finished, localv := 0 },
                  { pc := HandlerPC.atStart, localv := 0 }] 1 false) :=
    ⟨0, by decide⟩
  have h45 : AggStepRel
      (AggSys.mk [{ pc := HandlerPC.finished, localv := 0 },
                  { pc := HandlerPC.atStart, localv := 0 }] 1 false)
      (AggSys.mk [{ pc := HandlerPC.finished, localv := 0 },
                  { pc := HandlerPC.inLock, localv := 0 }] 1 true) :=
    ⟨1, by decide⟩
  have h56 : AggStepRel
      (AggSys.mk [{ pc := HandlerPC.finished, localv := 0 },
                  { pc := HandlerPC.inLock, localv := 0 }] 1 true)
      (AggSys.mk [{ pc := HandlerPC.finished, localv := 0 },
                  { pc := HandlerPC.readDone, localv := 1 }] 1 true) :=
    ⟨1, by decide⟩
  have h67 : AggStepRel
      (AggSys.mk [{ pc := HandlerPC.finished, localv := 0 },
                  { pc := HandlerPC.readDone, localv := 1 }] 1 true)
      (AggSys.mk [{ pc := HandlerPC.finished, localv := 0 },
                  { pc := HandlerPC.writeDone, localv := 1 }] 2 true) :=
    ⟨1, by decide⟩
  have h78 : AggStepRel
      (AggSys.mk [{ pc := HandlerPC.finished, localv := 0 },
                  { pc := HandlerPC.writeDone, localv := 1 }] 2 true)
      (AggSys.mk [{ pc := HandlerPC.finished, localv := 0 },
                  { pc := HandlerPC.finished, localv := 1 }] 2 false) :=
    ⟨1, by decide⟩
  have hreach : AggReach (aggInit 2)
      (AggSys.mk [{ pc := HandlerPC.finished, localv := 0 },
                  { pc := HandlerPC.finished, localv := 1 }] 2 false) :=
    Relation.ReflTransGen.refl.tail h01 |>.tail h12 |>.tail h23 |>.tail h34
      |>.tail h45 |>.tail h56 |>.tail h67 |>.tail h78
  exact (c9_aggregation_serialized 2 _ hreach).2 (by decide)

end Autogtp
